import Mathlib

/-!
Verification development for the crypto data-fusion pipeline
(`phase1_data_foundation/data_models.py` and
`phase1_data_foundation/data_pipeline.py`).

Shallow embedding conventions:
* Python `float` values are modelled as `ℚ` (the fusion logic only uses
  comparisons, `+`, `*`, `/`, `abs` and `round`, all exact on rationals).
* `datetime` values are modelled as integer epoch seconds (`ℤ`);
  `timedelta.seconds` is the elapsed time modulo 86400, see `tdSeconds`.
* `Optional[X]` fields become `Option X`; Python truthiness on an
  `Optional[float]` (`if not self.rsi_14`) is modelled by `truthy`
  (false for `None` and for `0.0`).
* The fallible enum conversion `SignalStrength(v)` (which raises
  `ValueError` outside 1..5) is modelled by `SignalStrength.fromValue :
  ℤ → Option SignalStrength`; consequently `calculate_combined_signal`
  returns an `Option`, `none` standing for a raised exception.
* Python 3 `round` is round-half-to-even on the exact rational value,
  modelled by `pyRound`.
Structure fields that no modelled operation reads (quality tags,
metadata dictionaries, OHLC fields, MACD/Bollinger indicators, …) are
omitted from the records; they play no role in any verified property.
-/

/-- Signal strength enum of `data_models.py` (values 5,4,3,2,1). -/
inductive SignalStrength where
  | STRONG_BUY
  | BUY
  | NEUTRAL
  | SELL
  | STRONG_SELL
deriving DecidableEq, Repr

/-- The `.value` attribute of the Python enum member. -/
def SignalStrength.value : SignalStrength → ℤ
  | .STRONG_BUY => 5
  | .BUY => 4
  | .NEUTRAL => 3
  | .SELL => 2
  | .STRONG_SELL => 1

/-- The enum lookup `SignalStrength(v)`: `some` member with that value,
`none` when the lookup would raise `ValueError`. -/
def SignalStrength.fromValue (v : ℤ) : Option SignalStrength :=
  if v = 5 then some .STRONG_BUY
  else if v = 4 then some .BUY
  else if v = 3 then some .NEUTRAL
  else if v = 2 then some .SELL
  else if v = 1 then some .STRONG_SELL
  else none

/-- Market data record (`MarketData`); fields used by the fusion logic. -/
structure MarketData where
  symbol : String
  timestamp : ℤ
  price : ℚ
  volume_24h : ℚ
  market_cap : ℚ
  change_24h : ℚ
  source : String
deriving DecidableEq, Repr

/-- The method `MarketData.get_signal_strength`: signal from 24h price movement. -/
def MarketData.get_signal_strength (md : MarketData) : SignalStrength :=
  if 10 < md.change_24h then .STRONG_BUY
  else if 3 < md.change_24h then .BUY
  else if md.change_24h < -10 then .STRONG_SELL
  else if md.change_24h < -3 then .SELL
  else .NEUTRAL

/-- News article record (`NewsItem`); fields used by the fusion logic. -/
structure NewsItem where
  headline : String
  source : String
  published_at : ℤ
  url : String
  sentiment_score : ℚ
  relevance_score : ℚ
  impact_level : String
deriving DecidableEq, Repr

/-- The method `NewsItem.get_signal_from_sentiment`. -/
def NewsItem.get_signal_from_sentiment (n : NewsItem) : SignalStrength :=
  if 1/2 < n.sentiment_score ∧ (n.impact_level = "high" ∨ n.impact_level = "critical") then
    .STRONG_BUY
  else if 1/5 < n.sentiment_score then .BUY
  else if n.sentiment_score < -(1/2) ∧ (n.impact_level = "high" ∨ n.impact_level = "critical") then
    .STRONG_SELL
  else if n.sentiment_score < -(1/5) then .SELL
  else .NEUTRAL

/-- Market sentiment record (`MarketSentiment`); fields used by the fusion logic. -/
structure MarketSentiment where
  timestamp : ℤ
  fear_greed_index : ℤ
  fear_greed_label : String
  source : String
deriving DecidableEq, Repr

/-- The method `MarketSentiment.get_contrarian_signal`. -/
def MarketSentiment.get_contrarian_signal (m : MarketSentiment) : SignalStrength :=
  if m.fear_greed_index < 20 then .STRONG_BUY
  else if 80 < m.fear_greed_index then .STRONG_SELL
  else if m.fear_greed_index < 35 then .BUY
  else if 65 < m.fear_greed_index then .SELL
  else .NEUTRAL

/-- Technical indicator record (`TechnicalIndicators`); the indicator fields
used by the fusion logic (each `Optional[float]` in the source). -/
structure TechnicalIndicators where
  symbol : String
  timestamp : ℤ
  rsi_14 : Option ℚ
  sma_50 : Option ℚ
  sma_200 : Option ℚ
deriving DecidableEq, Repr

/-- Python truthiness of an `Optional[float]`: `None` and `0.0` are falsy. -/
def truthy : Option ℚ → Bool
  | none => false
  | some q => q ≠ 0

/-- The method `TechnicalIndicators.get_rsi_signal` (the guard is
`if not self.rsi_14`, i.e. Python truthiness). -/
def TechnicalIndicators.get_rsi_signal (t : TechnicalIndicators) : SignalStrength :=
  match t.rsi_14 with
  | none => .NEUTRAL
  | some r =>
    if r = 0 then .NEUTRAL
    else if r < 30 then .STRONG_BUY
    else if r < 40 then .BUY
    else if 70 < r then .STRONG_SELL
    else if 60 < r then .SELL
    else .NEUTRAL

/-- The method `TechnicalIndicators.get_ma_signal` (guards are Python
truthiness of `sma_50` and `sma_200`). -/
def TechnicalIndicators.get_ma_signal (t : TechnicalIndicators) (current_price : ℚ) :
    SignalStrength :=
  if truthy t.sma_50 = false ∨ truthy t.sma_200 = false then .NEUTRAL
  else
    match t.sma_50, t.sma_200 with
    | some s50, some s200 =>
      if s200 < s50 ∧ s50 < current_price then .STRONG_BUY
      else if s50 < s200 ∧ current_price < s50 then .STRONG_SELL
      else if s50 < current_price then .BUY
      else if current_price < s50 then .SELL
      else .NEUTRAL
    | _, _ => .NEUTRAL

/-- Python 3 `round` on an exact rational: round half to even. -/
def pyRound (q : ℚ) : ℤ :=
  if q - ⌊q⌋ < 1/2 then ⌊q⌋
  else if 1/2 < q - ⌊q⌋ then ⌊q⌋ + 1
  else if ⌊q⌋ % 2 = 0 then ⌊q⌋ else ⌊q⌋ + 1

example : pyRound (7/2) = 4 := by norm_num [pyRound]
example : pyRound (5/2) = 2 := by norm_num [pyRound]
example : pyRound (16/5) = 3 := by norm_num [pyRound]
example : pyRound (-(3/2)) = -2 := by norm_num [pyRound]

/-- Combined signal record (`CombinedSignal`), with its input fields (the four
optional source records) and the derived fields written by the fusion engine. -/
structure CombinedSignal where
  symbol : String
  timestamp : ℤ
  market_data : Option MarketData
  news_items : List NewsItem
  sentiment : Option MarketSentiment
  technicals : Option TechnicalIndicators
  overall_signal : SignalStrength
  confidence : ℚ
  risk_level : String
  price_signal : SignalStrength
  news_signal : SignalStrength
  sentiment_signal : SignalStrength
  technical_signal : SignalStrength
  reasoning : List String
  warnings : List String
  opportunities : List String
deriving DecidableEq, Repr

/-- Dataclass construction of a `CombinedSignal` from the four collected
source records, all other fields at their dataclass defaults
(`NEUTRAL`, `0.0`, `"medium"`, empty lists), as done in
`CryptoDataPipeline.collect_all_data`. -/
def mkCombined (symbol : String) (timestamp : ℤ) (md : Option MarketData)
    (news : List NewsItem) (sent : Option MarketSentiment)
    (tech : Option TechnicalIndicators) : CombinedSignal where
  symbol := symbol
  timestamp := timestamp
  market_data := md
  news_items := news
  sentiment := sent
  technicals := tech
  overall_signal := .NEUTRAL
  confidence := 0
  risk_level := "medium"
  price_signal := .NEUTRAL
  news_signal := .NEUTRAL
  sentiment_signal := .NEUTRAL
  technical_signal := .NEUTRAL
  reasoning := []
  warnings := []
  opportunities := []

/-- Mean of a list of rationals (`sum(l)/len(l)` in the source). -/
def listAvg (l : List ℚ) : ℚ := l.sum / l.length

/-- The per-item news signal values of `self.news_items[:5]`
(`news_scores` in `calculate_combined_signal`). -/
def newsScores (items : List NewsItem) : List ℚ :=
  (items.take 5).map fun it => ((it.get_signal_from_sentiment).value : ℚ)

/-- The `tech_signals` list of `calculate_combined_signal`: the RSI signal when
`rsi_14` is truthy, and the moving-average signal when `market_data` is present
and `sma_50` is truthy. -/
def techScores (s : CombinedSignal) : List ℚ :=
  match s.technicals with
  | none => []
  | some t =>
    (if truthy t.rsi_14 then [((t.get_rsi_signal).value : ℚ)] else []) ++
    (match s.market_data with
     | some md => if truthy t.sma_50 then [((t.get_ma_signal md.price).value : ℚ)] else []
     | none => [])

/-- Market-data contribution to the `signals`/`weights` lists (value paired
with its weight `0.25`), empty when `market_data` is absent. -/
def marketContrib (s : CombinedSignal) : List (ℚ × ℚ) :=
  match s.market_data with
  | some md => [(((md.get_signal_strength).value : ℚ), 1/4)]
  | none => []

/-- News contribution: the pre-rounding average of the first five news item
signals, weight `0.3`, present exactly when `news_items` is non-empty (the
source's inner `if news_scores` guard coincides with the outer
`if self.news_items` guard because `take 5` of a non-empty list is non-empty). -/
def newsContrib (s : CombinedSignal) : List (ℚ × ℚ) :=
  if s.news_items = [] then [] else [(listAvg (newsScores s.news_items), 3/10)]

/-- Sentiment contribution: the contrarian signal value, weight `0.2`. -/
def sentimentContrib (s : CombinedSignal) : List (ℚ × ℚ) :=
  match s.sentiment with
  | some m => [(((m.get_contrarian_signal).value : ℚ), 1/5)]
  | none => []

/-- Technical contribution: the pre-rounding average of the computable
technical sub-signals, weight `0.25`; empty when the record is absent or
`tech_signals` is empty. -/
def technicalContrib (s : CombinedSignal) : List (ℚ × ℚ) :=
  match s.technicals with
  | none => []
  | some _ => if techScores s = [] then [] else [(listAvg (techScores s), 1/4)]

/-- The parallel `signals`/`weights` lists of `calculate_combined_signal`,
represented as one list of (signal, weight) pairs (the source appends to the
two lists in lock-step, so they are always aligned). -/
def presentContribs (s : CombinedSignal) : List (ℚ × ℚ) :=
  marketContrib s ++ newsContrib s ++ sentimentContrib s ++ technicalContrib s

/-- The `avg_signal` of the source: `weighted_sum / total_weight`. -/
def weightedMean (l : List (ℚ × ℚ)) : ℚ :=
  (l.map fun p => p.1 * p.2).sum / (l.map Prod.snd).sum

/-- The `signal_variance` of the source: population variance of the raw
signal values around the weighted mean, divided by `len(signals)`. -/
def signalVariance (s : CombinedSignal) : ℚ :=
  let avg := weightedMean (presentContribs s)
  (((presentContribs s).map fun p => (p.1 - avg) ^ 2).sum) / (presentContribs s).length

/-- Decimal string of a rational, used only inside generated reasoning text
(stands in for Python float formatting; no verified property reads it). -/
def ratStr (q : ℚ) : String := toString q.num ++ "/" ++ toString q.den

/-- The method `CombinedSignal._generate_reasoning`: resets `reasoning` and
rebuilds it from the (already updated) signal fields. -/
def generate_reasoning (s : CombinedSignal) : CombinedSignal :=
  let r1 : List String :=
    if s.overall_signal = .STRONG_BUY ∨ s.overall_signal = .BUY then
      ["Bullish signal with " ++ ratStr s.confidence ++ " confidence"]
    else if s.overall_signal = .STRONG_SELL ∨ s.overall_signal = .SELL then
      ["Bearish signal with " ++ ratStr s.confidence ++ " confidence"]
    else ["Neutral market conditions"]
  let r2 : List String :=
    match s.market_data with
    | some md => ["Price action: " ++ ratStr md.change_24h ++ "% in 24h"]
    | none => []
  let r3 : List String :=
    match s.sentiment with
    | some m => ["Market sentiment: " ++ m.fear_greed_label]
    | none => []
  let r4 : List String :=
    if s.news_items = [] then []
    else ["News sentiment: " ++ toString s.news_items.length ++ " articles analyzed"]
  let r5 : List String :=
    match s.technicals with
    | some t => if truthy t.rsi_14 then ["RSI present"] else []
    | none => []
  { s with reasoning := r1 ++ r2 ++ r3 ++ r4 ++ r5 }

/-- Warnings appended while processing market data
(high-volatility warning when `abs(change_24h) > 10`). -/
def marketWarnings (s : CombinedSignal) : List String :=
  match s.market_data with
  | some md => if 10 < |md.change_24h| then ["High volatility 24h change"] else []
  | none => []

/-- Warnings appended while processing news (first critical-impact item). -/
def newsWarnings (s : CombinedSignal) : List String :=
  if s.news_items = [] then []
  else
    match s.news_items.filter (fun n => n.impact_level = "critical") with
    | [] => []
    | n :: _ => ["Critical news: " ++ n.headline.take 50]

/-- Opportunities appended while processing sentiment (extreme index). -/
def sentimentOpportunities (s : CombinedSignal) : List String :=
  match s.sentiment with
  | some m =>
    if m.fear_greed_index < 20 ∨ 80 < m.fear_greed_index then
      ["Extreme sentiment: " ++ m.fear_greed_label]
    else []
  | none => []

/-- The news-signal update: `SignalStrength(round(avg_news_signal))` when news
is present, otherwise the field keeps its previous value. -/
def newsSignalUpd (s : CombinedSignal) : Option SignalStrength :=
  if s.news_items = [] then some s.news_signal
  else SignalStrength.fromValue (pyRound (listAvg (newsScores s.news_items)))

/-- The technical-signal update: `SignalStrength(round(avg_tech_signal))` when
the technicals record is present and at least one sub-signal is computable,
otherwise the field keeps its previous value. -/
def techSignalUpd (s : CombinedSignal) : Option SignalStrength :=
  match s.technicals with
  | none => some s.technical_signal
  | some _ =>
    if techScores s = [] then some s.technical_signal
    else SignalStrength.fromValue (pyRound (listAvg (techScores s)))

/-- The method `CombinedSignal.calculate_combined_signal`, as a pure state
transformer. A `none` result models a raised `ValueError` from one of the
`SignalStrength(round(...))` conversions (the enum lookups are hoisted out of
the sequential method body; they are pure, so this preserves its semantics).
When `signals`/`weights` are empty the weighted-average block, including the
confidence and risk-level assignments, is skipped, exactly as in the source. -/
def calculate_combined_signal (s : CombinedSignal) : Option CombinedSignal :=
  match newsSignalUpd s, techSignalUpd s with
  | some ns, some ts =>
    let base : CombinedSignal :=
      { s with
        price_signal :=
          match s.market_data with
          | some md => md.get_signal_strength
          | none => s.price_signal
        news_signal := ns
        sentiment_signal :=
          match s.sentiment with
          | some m => m.get_contrarian_signal
          | none => s.sentiment_signal
        technical_signal := ts
        warnings := s.warnings ++ marketWarnings s ++ newsWarnings s
        opportunities := s.opportunities ++ sentimentOpportunities s }
    if presentContribs s = [] then some (generate_reasoning base)
    else
      match SignalStrength.fromValue (pyRound (weightedMean (presentContribs s))) with
      | some ov =>
        let conf : ℚ := max 0 (min 1 (1 - signalVariance s / 4))
        some (generate_reasoning
          { base with
            overall_signal := ov
            confidence := conf
            risk_level :=
              if conf < 3/10 then "extreme"
              else if conf < 1/2 then "high"
              else if conf < 7/10 then "medium"
              else "low" })
      | none => none
  | _, _ => none

/-- The four upstream providers configured in `CryptoDataPipeline.__init__`. -/
inductive Provider where
  | polygon
  | coingecko
  | newsapi
  | alternative
deriving DecidableEq, Repr

/-- The `max` quota of each provider's rate-limit entry. -/
def maxCalls : Provider → ℕ
  | .polygon => 5
  | .coingecko => 10
  | .newsapi => 100
  | .alternative => 30

/-- Rate-limiter state: the `calls` counter of each provider. -/
def RLState : Type := Provider → ℕ

/-- The all-zero counters set up in `__init__`. -/
def zeroRL : RLState := fun _ => 0

/-- The method `CryptoDataPipeline._check_rate_limit`. -/
def checkRateLimit (rl : RLState) (p : Provider) : Bool :=
  rl p < maxCalls p

/-- The method `CryptoDataPipeline._increment_rate_limit`. -/
def incrementRateLimit (rl : RLState) (p : Provider) : RLState :=
  fun q => if q = p then rl q + 1 else rl q

/-- One acquisition attempt: check the limit and, when granted, increment the
counter (the check/increment pair the pipeline performs around a call). -/
def tryAcquire (rl : RLState) (p : Provider) : Bool × RLState :=
  if checkRateLimit rl p then (true, incrementRateLimit rl p) else (false, rl)

/-- The method `CryptoDataPipeline.reset_rate_limits`: every counter to zero. -/
def resetRateLimits (_ : RLState) : RLState := fun _ => 0

/-- State after `n` acquisition attempts for provider `p`. -/
def acquireIter (p : Provider) (rl : RLState) : ℕ → RLState
  | 0 => rl
  | n + 1 => (tryAcquire (acquireIter p rl n) p).2

/-- One per-category cache dictionary (`self.cache[category]`): each key maps
to the stored record together with its write timestamp, as produced by
`_update_cache` (`{'data': data, 'timestamp': datetime.now()}`). -/
def Cache (α : Type) : Type := String → Option (α × ℤ)

/-- The empty cache dictionary set up in `__init__`. -/
def emptyCache (α : Type) : Cache α := fun _ => none

/-- The method `CryptoDataPipeline._update_cache`. -/
def cachePut {α : Type} (c : Cache α) (key : String) (data : α) (now : ℤ) : Cache α :=
  fun k => if k = key then some (data, now) else c k

/-- Python `timedelta.seconds` of a difference of `elapsed` whole seconds:
the seconds component after normalisation into days, i.e. modulo 86400
(floored modulus, as in Python). -/
def tdSeconds (elapsed : ℤ) : ℤ := elapsed % 86400

/-- The cache read the collectors perform: a key hit is served when
`(datetime.now() - cached['timestamp']).seconds < ttl`. -/
def cacheGet {α : Type} (c : Cache α) (key : String) (now ttl : ℤ) : Option α :=
  match c key with
  | none => none
  | some (d, t) => if tdSeconds (now - t) < ttl then some d else none

/-- The method `CryptoDataPipeline._collect_market_data`, with the outcome of
each live fetch (`_fetch_polygon_data`, `_fetch_coingecko_data`) supplied as a
parameter (`none` models an unavailable or failed fetch). Polygon is tried
first behind its API-key and rate-limit gates, then CoinGecko behind its
rate-limit gate, and the 300-second cache is read only after both live
attempts produced nothing. Cache writes (which happen inside the fetch
helpers on success) are modelled separately by `cachePut`. -/
def collectMarketData (hasPolygonKey : Bool) (rl : RLState)
    (polygonFetch coingeckoFetch : Option MarketData)
    (cache : Cache MarketData) (symbol : String) (now : ℤ) : Option MarketData :=
  match (if hasPolygonKey && checkRateLimit rl .polygon then polygonFetch else none) with
  | some d => some d
  | none =>
    match (if checkRateLimit rl .coingecko then coingeckoFetch else none) with
    | some d => some d
    | none => cacheGet cache ("market_" ++ symbol) now 300

/-- The method `CryptoDataPipeline._collect_news`, live-fetch outcome supplied
as a parameter: the 1800-second cache is checked FIRST and a fresh hit is
returned immediately; only on a miss is the live fetch consulted, a failed
live fetch yielding the empty list. -/
def collectNews (cache : Cache (List NewsItem)) (symbol : String) (now : ℤ)
    (liveFetch : Option (List NewsItem)) : List NewsItem :=
  match cacheGet cache ("news_" ++ symbol) now 1800 with
  | some items => items
  | none =>
    match liveFetch with
    | some items => items
    | none => []

/-- The method `CryptoDataPipeline._collect_sentiment`, live-fetch outcome
supplied as a parameter: the 3600-second cache is checked FIRST under the
fixed key `"sentiment_global"`; only on a miss is the live fetch consulted. -/
def collectSentiment (cache : Cache MarketSentiment) (now : ℤ)
    (liveFetch : Option MarketSentiment) : Option MarketSentiment :=
  match cacheGet cache "sentiment_global" now 3600 with
  | some m => some m
  | none => liveFetch

/-- The method `CryptoDataPipeline.collect_all_data`: iterate over the
symbols, run the per-symbol body (collection, bundle construction and fusion
— abstracted as `process`, whose `Except.error` case models any exception
escaping the body), store each success under its symbol and skip failures
(`except Exception: ... continue`). The Python dict is represented as the
association list of insertions in order. -/
def collect_all_data (process : String → Except String CombinedSignal) :
    List String → List (String × CombinedSignal)
  | [] => []
  | sym :: rest =>
    match process sym with
    | .ok sig => (sym, sig) :: collect_all_data process rest
    | .error _ => collect_all_data process rest

section BoundsLemmas

/-- Every enum member has value between 1 and 5. -/
lemma SignalStrength.value_bounds (g : SignalStrength) : 1 ≤ g.value ∧ g.value ≤ 5 := by
  cases g <;> simp [SignalStrength.value]

/-- Every enum member has rational value between 1 and 5. -/
lemma SignalStrength.value_bounds_q (g : SignalStrength) :
    1 ≤ (g.value : ℚ) ∧ (g.value : ℚ) ≤ 5 := by
  obtain ⟨h1, h2⟩ := g.value_bounds
  constructor <;> exact_mod_cast ‹_›

/-- The enum lookup succeeds on every integer in 1..5. -/
lemma SignalStrength.fromValue_exists {z : ℤ} (h1 : 1 ≤ z) (h2 : z ≤ 5) :
    ∃ g, SignalStrength.fromValue z = some g ∧ g.value = z := by
  interval_cases z
  · exact ⟨.STRONG_SELL, rfl, rfl⟩
  · exact ⟨.SELL, rfl, rfl⟩
  · exact ⟨.NEUTRAL, rfl, rfl⟩
  · exact ⟨.BUY, rfl, rfl⟩
  · exact ⟨.STRONG_BUY, rfl, rfl⟩

/-- A successful enum lookup returns the member with the looked-up value. -/
lemma SignalStrength.fromValue_value {z : ℤ} {g : SignalStrength}
    (h : SignalStrength.fromValue z = some g) : g.value = z := by
  unfold SignalStrength.fromValue at h
  split_ifs at h with h5 h4 h3 h2 h1
  · cases h; simp [SignalStrength.value, h5]
  · cases h; simp [SignalStrength.value, h4]
  · cases h; simp [SignalStrength.value, h3]
  · cases h; simp [SignalStrength.value, h2]
  · cases h; simp [SignalStrength.value, h1]

/-- Sum bounds for a list of values each between 1 and 5. -/
lemma list_sum_bounds (l : List ℚ) (h : ∀ x ∈ l, 1 ≤ x ∧ x ≤ 5) :
    (l.length : ℚ) ≤ l.sum ∧ l.sum ≤ 5 * l.length := by
  induction l with
  | nil => simp
  | cons a t ih =>
    have ha := h a (by simp)
    have ih' := ih fun x hx => h x (by simp [hx])
    simp only [List.sum_cons, List.length_cons]
    push_cast
    constructor <;> linarith [ih'.1, ih'.2, ha.1, ha.2]

/-- The mean of a non-empty list of values in [1, 5] is in [1, 5]. -/
lemma listAvg_bounds (l : List ℚ) (hne : l ≠ []) (h : ∀ x ∈ l, 1 ≤ x ∧ x ≤ 5) :
    1 ≤ listAvg l ∧ listAvg l ≤ 5 := by
  have hlen : 0 < (l.length : ℚ) := by
    exact_mod_cast List.length_pos.mpr hne
  obtain ⟨h1, h2⟩ := list_sum_bounds l h
  unfold listAvg
  constructor
  · rw [le_div_iff₀ hlen]; linarith
  · rw [div_le_iff₀ hlen]; linarith

/-- With signals in [1, 5] and positive weights, the weighted sum is between
one and five times the total weight. -/
lemma wsum_bounds (l : List (ℚ × ℚ)) (h : ∀ p ∈ l, (1 ≤ p.1 ∧ p.1 ≤ 5) ∧ 0 < p.2) :
    (l.map Prod.snd).sum ≤ (l.map fun p => p.1 * p.2).sum ∧
      (l.map fun p => p.1 * p.2).sum ≤ 5 * (l.map Prod.snd).sum := by
  induction l with
  | nil => simp
  | cons a t ih =>
    obtain ⟨⟨h1, h2⟩, h3⟩ := h a (by simp)
    have ih' := ih fun p hp => h p (by simp [hp])
    simp only [List.map_cons, List.sum_cons]
    have e1 : a.2 ≤ a.1 * a.2 := by nlinarith
    have e2 : a.1 * a.2 ≤ 5 * a.2 := by nlinarith
    constructor <;> linarith [ih'.1, ih'.2]

/-- The total weight of a non-empty list with positive weights is positive. -/
lemma wsum_pos (l : List (ℚ × ℚ)) (hne : l ≠ []) (h : ∀ p ∈ l, 0 < p.2) :
    0 < (l.map Prod.snd).sum := by
  cases l with
  | nil => exact absurd rfl hne
  | cons a t =>
    simp only [List.map_cons, List.sum_cons]
    have ha := h a (by simp)
    have ht : 0 ≤ (t.map Prod.snd).sum := by
      apply List.sum_nonneg
      intro x hx
      obtain ⟨p, hp, rfl⟩ := List.mem_map.mp hx
      exact le_of_lt (h p (by simp [hp]))
    linarith

/-- The weighted mean of a non-empty contribution list with signals in [1, 5]
and positive weights lies in [1, 5]. -/
lemma weightedMean_bounds (l : List (ℚ × ℚ)) (hne : l ≠ [])
    (h : ∀ p ∈ l, (1 ≤ p.1 ∧ p.1 ≤ 5) ∧ 0 < p.2) :
    1 ≤ weightedMean l ∧ weightedMean l ≤ 5 := by
  have hw : 0 < (l.map Prod.snd).sum := wsum_pos l hne fun p hp => (h p hp).2
  obtain ⟨h1, h2⟩ := wsum_bounds l h
  unfold weightedMean
  constructor
  · rw [le_div_iff₀ hw]; linarith
  · rw [div_le_iff₀ hw]; linarith

/-- Rounding cannot go below an integer lower bound. -/
lemma le_pyRound (q : ℚ) (n : ℤ) (h : (n : ℚ) ≤ q) : n ≤ pyRound q := by
  have hf : n ≤ ⌊q⌋ := Int.le_floor.mpr h
  unfold pyRound
  split_ifs <;> omega

/-- Rounding cannot exceed an integer upper bound. -/
lemma pyRound_le (q : ℚ) (n : ℤ) (h : q ≤ (n : ℚ)) : pyRound q ≤ n := by
  have hf : ⌊q⌋ ≤ n := by
    have h2 : ⌊q⌋ ≤ ⌊(n : ℚ)⌋ := Int.floor_le_floor h
    simpa using h2
  have hfl : (⌊q⌋ : ℚ) ≤ q := Int.floor_le q
  unfold pyRound
  split_ifs with h1 h2 h3
  · omega
  all_goals {
    have hr : (1 : ℚ)/2 ≤ q - ⌊q⌋ := by linarith [not_lt.mp h1]
    have hne : ⌊q⌋ ≠ n := by
      intro he
      rw [he] at hr
      have : q - (n : ℚ) ≤ 0 := by linarith
      linarith
    omega }

/-- Every news score is an enum value, hence in [1, 5]. -/
lemma newsScores_bounds (items : List NewsItem) :
    ∀ x ∈ newsScores items, 1 ≤ x ∧ x ≤ 5 := by
  intro x hx
  obtain ⟨it, _, rfl⟩ := List.mem_map.mp hx
  exact (it.get_signal_from_sentiment).value_bounds_q

/-- Non-empty news yields a non-empty score list. -/
lemma newsScores_ne_nil {items : List NewsItem} (h : items ≠ []) :
    newsScores items ≠ [] := by
  simp only [newsScores, ne_eq, List.map_eq_nil_iff, List.take_eq_nil_iff]
  simp [h]

/-- Every technical score is an enum value, hence in [1, 5]. -/
lemma techScores_bounds (s : CombinedSignal) :
    ∀ x ∈ techScores s, 1 ≤ x ∧ x ≤ 5 := by
  intro x hx
  unfold techScores at hx
  split at hx
  · simp at hx
  · rw [List.mem_append] at hx
    rcases hx with hx | hx
    · split at hx
      · rw [List.mem_singleton] at hx
        subst hx
        exact SignalStrength.value_bounds_q _
      · simp at hx
    · split at hx
      · split at hx
        · rw [List.mem_singleton] at hx
          subst hx
          exact SignalStrength.value_bounds_q _
        · simp at hx
      · simp at hx

/-- Every pair appended to the `signals`/`weights` lists has a signal value in
[1, 5] and a positive weight. -/
lemma presentContribs_bounds (s : CombinedSignal) :
    ∀ p ∈ presentContribs s, (1 ≤ p.1 ∧ p.1 ≤ 5) ∧ 0 < p.2 := by
  intro p hp
  unfold presentContribs at hp
  simp only [List.mem_append] at hp
  rcases hp with ((hp | hp) | hp) | hp
  · unfold marketContrib at hp
    split at hp
    · rw [List.mem_singleton] at hp
      subst hp
      exact ⟨SignalStrength.value_bounds_q _, by norm_num⟩
    · simp at hp
  · unfold newsContrib at hp
    split at hp
    · simp at hp
    · rw [List.mem_singleton] at hp
      subst hp
      refine ⟨listAvg_bounds _ (newsScores_ne_nil ?_) (newsScores_bounds _), by norm_num⟩
      assumption
  · unfold sentimentContrib at hp
    split at hp
    · rw [List.mem_singleton] at hp
      subst hp
      exact ⟨SignalStrength.value_bounds_q _, by norm_num⟩
    · simp at hp
  · unfold technicalContrib at hp
    split at hp
    · simp at hp
    · split at hp
      · simp at hp
      · rw [List.mem_singleton] at hp
        subst hp
        exact ⟨listAvg_bounds _ (by assumption) (techScores_bounds s), by norm_num⟩

/-- The weighted mean over a non-empty contribution list lies in [1, 5]. -/
lemma presentContribs_mean_bounds (s : CombinedSignal) (h : presentContribs s ≠ []) :
    1 ≤ weightedMean (presentContribs s) ∧ weightedMean (presentContribs s) ≤ 5 :=
  weightedMean_bounds _ h (presentContribs_bounds s)

/-- The rounded value of any rational in [1, 5] converts to an enum member. -/
lemma fromValue_pyRound_some {q : ℚ} (h1 : 1 ≤ q) (h2 : q ≤ 5) :
    ∃ g, SignalStrength.fromValue (pyRound q) = some g ∧ (g.value : ℚ) = pyRound q := by
  have hlo : (1 : ℤ) ≤ pyRound q := le_pyRound q 1 (by exact_mod_cast h1)
  have hhi : pyRound q ≤ (5 : ℤ) := pyRound_le q 5 (by exact_mod_cast h2)
  obtain ⟨g, hg, hv⟩ := SignalStrength.fromValue_exists hlo hhi
  exact ⟨g, hg, by exact_mod_cast hv⟩

/-- The news-signal update never raises. -/
lemma newsSignalUpd_isSome (s : CombinedSignal) : ∃ g, newsSignalUpd s = some g := by
  unfold newsSignalUpd
  split_ifs with h
  · exact ⟨s.news_signal, rfl⟩
  · obtain ⟨hb1, hb2⟩ := listAvg_bounds _ (newsScores_ne_nil h) (newsScores_bounds s.news_items)
    obtain ⟨g, hg, _⟩ := fromValue_pyRound_some hb1 hb2
    exact ⟨g, hg⟩

/-- The technical-signal update never raises. -/
lemma techSignalUpd_isSome (s : CombinedSignal) : ∃ g, techSignalUpd s = some g := by
  unfold techSignalUpd
  split
  · exact ⟨s.technical_signal, rfl⟩
  · split_ifs with h
    · exact ⟨s.technical_signal, rfl⟩
    · obtain ⟨hb1, hb2⟩ := listAvg_bounds _ h (techScores_bounds s)
      obtain ⟨g, hg, _⟩ := fromValue_pyRound_some hb1 hb2
      exact ⟨g, hg⟩

/-- The overall conversion never raises when some component is present. -/
lemma overallUpd_isSome (s : CombinedSignal) (h : presentContribs s ≠ []) :
    ∃ g, SignalStrength.fromValue (pyRound (weightedMean (presentContribs s))) = some g := by
  obtain ⟨hb1, hb2⟩ := presentContribs_mean_bounds s h
  obtain ⟨g, hg, _⟩ := fromValue_pyRound_some hb1 hb2
  exact ⟨g, hg⟩

/-- The fusion step never raises on any bundle: both intermediate enum
conversions and (when applicable) the overall conversion succeed. -/
lemma calc_isSome (s : CombinedSignal) :
    ∃ s', calculate_combined_signal s = some s' := by
  obtain ⟨ns, hns⟩ := newsSignalUpd_isSome s
  obtain ⟨ts, hts⟩ := techSignalUpd_isSome s
  unfold calculate_combined_signal
  rw [hns, hts]
  dsimp only
  by_cases hc : presentContribs s = []
  · exact ⟨_, by rw [if_pos hc]⟩
  · obtain ⟨ov, hov⟩ := overallUpd_isSome s hc
    rw [if_neg hc, hov]
    exact ⟨_, rfl⟩

/-- When no component is present the fusion step leaves the aggregate fields
(overall signal, confidence, risk level) untouched. -/
lemma calc_char_empty (s s' : CombinedSignal)
    (h0 : presentContribs s = [])
    (h : calculate_combined_signal s = some s') :
    s'.overall_signal = s.overall_signal ∧ s'.confidence = s.confidence ∧
    s'.risk_level = s.risk_level := by
  obtain ⟨ns, hns⟩ := newsSignalUpd_isSome s
  obtain ⟨ts, hts⟩ := techSignalUpd_isSome s
  unfold calculate_combined_signal at h
  rw [hns, hts] at h
  dsimp only at h
  rw [if_pos h0] at h
  cases h
  exact ⟨rfl, rfl, rfl⟩

/-- When some component is present, the confidence written by the fusion step
is the clamped variance formula and the risk level is its threshold bucket. -/
lemma calc_char_conf (s s' : CombinedSignal)
    (h : calculate_combined_signal s = some s')
    (hne : presentContribs s ≠ []) :
    s'.confidence = max 0 (min 1 (1 - signalVariance s / 4)) ∧
    s'.risk_level = (if s'.confidence < 3/10 then "extreme"
      else if s'.confidence < 1/2 then "high"
      else if s'.confidence < 7/10 then "medium" else "low") := by
  obtain ⟨ns, hns⟩ := newsSignalUpd_isSome s
  obtain ⟨ts, hts⟩ := techSignalUpd_isSome s
  unfold calculate_combined_signal at h
  rw [hns, hts] at h
  dsimp only at h
  obtain ⟨ov, hov⟩ := overallUpd_isSome s hne
  rw [if_neg hne, hov] at h
  cases h
  exact ⟨rfl, rfl⟩

end BoundsLemmas

section ClaimTheorems

/-- Empty bundle used as a concrete test input: no market data, no news,
no sentiment, no technicals. -/
def emptyBundle : CombinedSignal := mkCombined "BTC" 0 none [] none none

/-- C10: for every `CombinedSignal`, `calculate_combined_signal` leaves the
input fields `symbol`, `timestamp`, `market_data`, `news_items`, `sentiment`
and `technicals` (together with the contents of the referenced records, which
are immutable values here) unchanged; only the derived fields are assigned. -/
theorem c10_calculate_preserves_inputs (s s' : CombinedSignal)
    (h : calculate_combined_signal s = some s') :
    s'.symbol = s.symbol ∧ s'.timestamp = s.timestamp ∧
    s'.market_data = s.market_data ∧ s'.news_items = s.news_items ∧
    s'.sentiment = s.sentiment ∧ s'.technicals = s.technicals := by
  obtain ⟨ns, hns⟩ := newsSignalUpd_isSome s
  obtain ⟨ts, hts⟩ := techSignalUpd_isSome s
  unfold calculate_combined_signal at h
  rw [hns, hts] at h
  dsimp only at h
  by_cases hc : presentContribs s = []
  · rw [if_pos hc] at h
    cases h
    exact ⟨rfl, rfl, rfl, rfl, rfl, rfl⟩
  · obtain ⟨ov, hov⟩ := overallUpd_isSome s hc
    rw [if_neg hc, hov] at h
    cases h
    exact ⟨rfl, rfl, rfl, rfl, rfl, rfl⟩

/-- Witness for C10 at the empty bundle. -/
theorem c10_calculate_preserves_inputs_witness :
    ∃ s', calculate_combined_signal emptyBundle = some s' ∧
      s'.symbol = emptyBundle.symbol ∧ s'.market_data = emptyBundle.market_data := by
  obtain ⟨s', hs⟩ := calc_isSome emptyBundle
  obtain ⟨h1, _, h3, _⟩ := c10_calculate_preserves_inputs emptyBundle s' hs
  exact ⟨s', hs, h1, h3⟩

/-- C1 counterexample: on the bundle with zero present components the fusion
step yields overall `NEUTRAL` and confidence `0`, but `risk_level` is
`"medium"` (the dataclass default, because the guarded branch skips the
risk-level assignment), not `"extreme"` as claimed. -/
theorem c1_counterexample :
    ((calculate_combined_signal emptyBundle).map
        fun r => (r.overall_signal, r.confidence, r.risk_level))
      = some (.NEUTRAL, 0, "medium")
    ∧ ("medium" : String) ≠ "extreme" := by
  constructor
  · rfl
  · decide

/-- C1 (amended): when no component is present, `calculate_combined_signal`
takes the explicit empty guard (so there is no division by zero) and leaves
`overall_signal`, `confidence` and `risk_level` unchanged; on a freshly
constructed bundle these are the defaults `NEUTRAL`, `0.0` and `"medium"`
(not `"extreme"`). -/
theorem c1_zero_components_guard (s s' : CombinedSignal)
    (h0 : presentContribs s = [])
    (h : calculate_combined_signal s = some s') :
    s'.overall_signal = s.overall_signal ∧ s'.confidence = s.confidence ∧
    s'.risk_level = s.risk_level :=
  calc_char_empty s s' h0 h

/-- Witness for C1 (amended) at the empty bundle. -/
theorem c1_zero_components_guard_witness :
    ∃ s', calculate_combined_signal emptyBundle = some s' ∧
      s'.overall_signal = .NEUTRAL ∧ s'.confidence = 0 ∧ s'.risk_level = "medium" := by
  obtain ⟨s', hs⟩ := calc_isSome emptyBundle
  obtain ⟨h1, h2, h3⟩ := c1_zero_components_guard emptyBundle s' rfl hs
  exact ⟨s', hs, h1, h2, h3⟩

/-- Spec-side definition (written from the spec's words, §4.5 steps 1-2):
the price component, present when market data is present, with ordinal the
price signal value and fixed weight 0.25. -/
def specPricePart (s : CombinedSignal) : List (ℚ × ℚ) :=
  match s.market_data with
  | some md => [(((md.get_signal_strength).value : ℚ), 25/100)]
  | none => []

/-- Spec-side definition: the news component, present when news items exist,
with ordinal the average over at most the 5 most recent items and fixed
weight 0.30. -/
def specNewsPart (s : CombinedSignal) : List (ℚ × ℚ) :=
  if s.news_items = [] then [] else [(listAvg (newsScores s.news_items), 30/100)]

/-- Spec-side definition: the sentiment component, present when the sentiment
record is present, with ordinal the contrarian signal value and fixed
weight 0.20. -/
def specSentimentPart (s : CombinedSignal) : List (ℚ × ℚ) :=
  match s.sentiment with
  | some m => [(((m.get_contrarian_signal).value : ℚ), 20/100)]
  | none => []

/-- Spec-side definition: the technical component, present when the record is
present and at least one of the RSI / moving-average sub-signals is
computable, with ordinal their average and fixed weight 0.25. -/
def specTechnicalPart (s : CombinedSignal) : List (ℚ × ℚ) :=
  match s.technicals with
  | none => []
  | some _ => if techScores s = [] then [] else [(listAvg (techScores s), 25/100)]

/-- Spec-side definition: the (ordinal, weight) pairs of the components
actually present. -/
def specComponents (s : CombinedSignal) : List (ℚ × ℚ) :=
  specPricePart s ++ specNewsPart s ++ specSentimentPart s ++ specTechnicalPart s

/-- Spec-side definition (§4.5 step 2): sum of weight·ordinal over the present
components divided by the sum of their weights — weights of absent components
contribute to neither numerator nor denominator. -/
def specWeightedMean (s : CombinedSignal) : ℚ :=
  ((specComponents s).map fun p => p.2 * p.1).sum / ((specComponents s).map Prod.snd).sum

/-- The spec-side component list coincides with the source's
`signals`/`weights` lists. -/
lemma specComponents_eq (s : CombinedSignal) : specComponents s = presentContribs s := by
  unfold specComponents presentContribs specPricePart marketContrib specNewsPart newsContrib
    specSentimentPart sentimentContrib specTechnicalPart technicalContrib
  norm_num

/-- The spec-side weighted mean coincides with the source's `avg_signal`. -/
lemma specWeightedMean_eq (s : CombinedSignal) :
    specWeightedMean s = weightedMean (presentContribs s) := by
  unfold specWeightedMean weightedMean
  rw [specComponents_eq]
  congr 1
  exact congrArg List.sum (List.map_congr_left fun (p : ℚ × ℚ) _ => mul_comm p.2 p.1)

/-- Characterisation of the overall signal written by the fusion step when at
least one component is present: its value is the rounded weighted mean of the
`signals`/`weights` lists. -/
lemma calc_overall_value (s s' : CombinedSignal)
    (h : calculate_combined_signal s = some s')
    (hne : presentContribs s ≠ []) :
    (s'.overall_signal).value = pyRound (weightedMean (presentContribs s)) := by
  obtain ⟨ns, hns⟩ := newsSignalUpd_isSome s
  obtain ⟨ts, hts⟩ := techSignalUpd_isSome s
  unfold calculate_combined_signal at h
  rw [hns, hts] at h
  dsimp only at h
  obtain ⟨ov, hov⟩ := overallUpd_isSome s hne
  rw [if_neg hne, hov] at h
  cases h
  exact SignalStrength.fromValue_value hov

/-- The only enum member of value 5 is STRONG_BUY. -/
lemma SignalStrength.eq_strong_buy_of_value {g : SignalStrength} (h : g.value = 5) :
    g = .STRONG_BUY := by
  cases g <;> simp_all [SignalStrength.value]

/-- C2: whenever at least one component is present, the overall ordinal is the
(Python) rounding of the weighted mean over only the present components with
fixed weights 0.25 / 0.30 / 0.20 / 0.25; and when market data is absent the
component list consists of exactly the news, sentiment and technical parts, so
the overall result uses the remaining three components' ordinals and weights
only. -/
theorem c2_overall_weighted_mean (s s' : CombinedSignal)
    (h : calculate_combined_signal s = some s')
    (hne : specComponents s ≠ []) :
    (s'.overall_signal).value = pyRound (specWeightedMean s) ∧
    (s.market_data = none →
      specComponents s = specNewsPart s ++ specSentimentPart s ++ specTechnicalPart s) := by
  rw [specComponents_eq] at hne
  constructor
  · rw [specWeightedMean_eq]
    exact calc_overall_value s s' h hne
  · intro hmd
    unfold specComponents specPricePart
    rw [hmd]
    rfl

/-- Witness input for C2: market data absent, one news item (score 1, low
impact, giving BUY = 4) and a neutral sentiment record (index 50 → 3). -/
def c2Bundle : CombinedSignal :=
  mkCombined "ETH" 0 none
    [{ headline := "up", source := "w", published_at := 0, url := "u",
       sentiment_score := 1, relevance_score := 1, impact_level := "low" }]
    (some { timestamp := 0, fear_greed_index := 50, fear_greed_label := "Neutral",
            source := "alternative.me" })
    none

/-- Witness for C2: at `c2Bundle` the overall ordinal equals the rounded
spec-side weighted mean of the two present components. -/
theorem c2_overall_weighted_mean_witness :
    ∃ s', calculate_combined_signal c2Bundle = some s' ∧
      (s'.overall_signal).value = pyRound (specWeightedMean c2Bundle) ∧
      c2Bundle.market_data = none := by
  obtain ⟨s', hs⟩ := calc_isSome c2Bundle
  have hne : specComponents c2Bundle ≠ [] := by
    rw [specComponents_eq]
    intro hcon
    exact List.noConfusion (List.append_eq_nil.mp (List.append_eq_nil.mp
      (List.append_eq_nil.mp hcon).1).1).2
  obtain ⟨h1, _⟩ := c2_overall_weighted_mean c2Bundle s' hs hne
  exact ⟨s', hs, h1, rfl⟩

/-- C3: whenever at least one component is present, the confidence is
`max(0, min(1, 1 − v/4))` with `v` the population variance (sum of squared
deviations over the number of present components) of the pre-rounding
contributions around their weighted mean; and an all-STRONG_BUY bundle yields
overall STRONG_BUY, confidence 1 and risk "low" (see the witness, which
evaluates exactly that bundle). -/
theorem c3_confidence_formula (s s' : CombinedSignal)
    (h : calculate_combined_signal s = some s')
    (hne : presentContribs s ≠ []) :
    s'.confidence = max 0 (min 1 (1 - signalVariance s / 4)) ∧
    s'.risk_level = (if s'.confidence < 3/10 then "extreme"
      else if s'.confidence < 1/2 then "high"
      else if s'.confidence < 7/10 then "medium" else "low") :=
  calc_char_conf s s' h hne

/-- Witness input for C3: all four components report STRONG_BUY — market
change +11%, one critical positive news item, fear/greed index 10,
RSI 25 (no moving averages, so the technical average is the RSI alone). -/
def allStrongBuyBundle : CombinedSignal :=
  mkCombined "BTC" 0
    (some { symbol := "BTC", timestamp := 0, price := 100, volume_24h := 1,
            market_cap := 1, change_24h := 11, source := "coingecko" })
    [{ headline := "surge", source := "w", published_at := 0, url := "u",
       sentiment_score := 1, relevance_score := 1, impact_level := "critical" }]
    (some { timestamp := 0, fear_greed_index := 10, fear_greed_label := "Extreme Fear",
            source := "alternative.me" })
    (some { symbol := "BTC", timestamp := 0, rsi_14 := some 25, sma_50 := none,
            sma_200 := none })

/-- Witness for C3: on the all-STRONG_BUY bundle the confidence equals the
formula value, which is 1 (zero variance), the overall signal is STRONG_BUY
and the risk level is "low". -/
theorem c3_confidence_formula_witness :
    ∃ s', calculate_combined_signal allStrongBuyBundle = some s' ∧
      s'.confidence = max 0 (min 1 (1 - signalVariance allStrongBuyBundle / 4)) ∧
      s'.confidence = 1 ∧ s'.overall_signal = .STRONG_BUY ∧ s'.risk_level = "low" := by
  obtain ⟨s', hs⟩ := calc_isSome allStrongBuyBundle
  have hne : presentContribs allStrongBuyBundle ≠ [] := by
    intro hcon
    exact List.noConfusion (List.append_eq_nil.mp (List.append_eq_nil.mp
      (List.append_eq_nil.mp hcon).1).1).1
  obtain ⟨h1, h5⟩ := c3_confidence_formula allStrongBuyBundle s' hs hne
  have hvar : signalVariance allStrongBuyBundle = 0 := by
    norm_num [signalVariance, presentContribs, marketContrib, newsContrib, sentimentContrib,
      technicalContrib, techScores, newsScores, listAvg, weightedMean, allStrongBuyBundle,
      mkCombined, MarketData.get_signal_strength, NewsItem.get_signal_from_sentiment,
      MarketSentiment.get_contrarian_signal, TechnicalIndicators.get_rsi_signal, truthy,
      SignalStrength.value]
  have hconf : s'.confidence = 1 := by
    rw [h1, hvar]
    norm_num
  have hwm : weightedMean (presentContribs allStrongBuyBundle) = 5 := by
    norm_num [presentContribs, marketContrib, newsContrib, sentimentContrib,
      technicalContrib, techScores, newsScores, listAvg, weightedMean, allStrongBuyBundle,
      mkCombined, MarketData.get_signal_strength, NewsItem.get_signal_from_sentiment,
      MarketSentiment.get_contrarian_signal, TechnicalIndicators.get_rsi_signal, truthy,
      SignalStrength.value]
  have hval : (s'.overall_signal).value = 5 := by
    rw [calc_overall_value allStrongBuyBundle s' hs hne, hwm]
    norm_num [pyRound]
  have hrisk : s'.risk_level = "low" := by
    rw [h5, hconf]
    norm_num
  exact ⟨s', hs, h1, hconf, SignalStrength.eq_strong_buy_of_value hval, hrisk⟩

/-- C7: for every input bundle, the fusion step completes without exception
(every `SignalStrength(round(...))` conversion succeeds), the resulting
confidence lies in [0, 1] and every computed ordinal (overall, news,
technical) is a valid `SignalStrength` with value in 1..5. -/
theorem c7_safety (symbol : String) (ts : ℤ) (md : Option MarketData)
    (news : List NewsItem) (sent : Option MarketSentiment)
    (tech : Option TechnicalIndicators) :
    ∃ s', calculate_combined_signal (mkCombined symbol ts md news sent tech) = some s' ∧
      0 ≤ s'.confidence ∧ s'.confidence ≤ 1 ∧
      1 ≤ (s'.overall_signal).value ∧ (s'.overall_signal).value ≤ 5 ∧
      1 ≤ (s'.news_signal).value ∧ (s'.news_signal).value ≤ 5 ∧
      1 ≤ (s'.technical_signal).value ∧ (s'.technical_signal).value ≤ 5 := by
  obtain ⟨s', hs⟩ := calc_isSome (mkCombined symbol ts md news sent tech)
  refine ⟨s', hs, ?_, ?_,
    (s'.overall_signal).value_bounds.1, (s'.overall_signal).value_bounds.2,
    (s'.news_signal).value_bounds.1, (s'.news_signal).value_bounds.2,
    (s'.technical_signal).value_bounds.1, (s'.technical_signal).value_bounds.2⟩
  all_goals {
    by_cases hc : presentContribs (mkCombined symbol ts md news sent tech) = []
    · obtain ⟨_, h2, _⟩ := calc_char_empty _ s' hc hs
      rw [h2]
      norm_num [mkCombined]
    · obtain ⟨h2, _⟩ := calc_char_conf _ s' hs hc
      rw [h2]
      first
        | exact le_max_left 0 _
        | exact max_le (by norm_num) (min_le_left 1 _) }

/-- Bundle whose only present record is a `TechnicalIndicators` with every
indicator field absent. -/
def c8Bundle : CombinedSignal :=
  mkCombined "BTC" 0 none [] none
    (some { symbol := "BTC", timestamp := 0, rsi_14 := none, sma_50 := none, sma_200 := none })

/-- C8 counterexample: with a present `TechnicalIndicators` record whose
indicator fields are all absent, the technical component contributes NOTHING
to the aggregation (the contribution list is empty, the 0.25 weight is never
appended) rather than contributing a NEUTRAL ordinal; no error is raised. -/
theorem c8_counterexample :
    c8Bundle.technicals =
      some { symbol := "BTC", timestamp := 0, rsi_14 := none, sma_50 := none, sma_200 := none } ∧
    technicalContrib c8Bundle = [] ∧ presentContribs c8Bundle = [] ∧
    (calculate_combined_signal c8Bundle).isSome = true := by
  obtain ⟨s', hs⟩ := calc_isSome c8Bundle
  exact ⟨rfl, rfl, rfl, by rw [hs]; rfl⟩

/-- C8 (amended): absence of an indicator field degrades the corresponding
sub-signal function to NEUTRAL without error (`get_rsi_signal` when `rsi_14`
is falsy, `get_ma_signal` when `sma_50` or `sma_200` is falsy); but when NO
technical sub-signal is computable the technical component is omitted from
the aggregation entirely (its weight is dropped) instead of contributing a
NEUTRAL ordinal. -/
theorem c8_missing_indicators (t : TechnicalIndicators) (p : ℚ) (s : CombinedSignal) :
    (truthy t.rsi_14 = false → t.get_rsi_signal = .NEUTRAL) ∧
    (truthy t.sma_50 = false ∨ truthy t.sma_200 = false → t.get_ma_signal p = .NEUTRAL) ∧
    (s.technicals.isSome = true → techScores s = [] →
      presentContribs s = marketContrib s ++ newsContrib s ++ sentimentContrib s) := by
  refine ⟨?_, ?_, ?_⟩
  · intro h
    unfold TechnicalIndicators.get_rsi_signal
    cases ht : t.rsi_14 with
    | none => rfl
    | some r =>
      rw [ht] at h
      simp only [truthy, decide_eq_false_iff_not, not_not] at h
      simp [h]
  · intro h
    unfold TechnicalIndicators.get_ma_signal
    rw [if_pos h]
  · intro h1 h2
    unfold presentContribs technicalContrib
    cases ht : s.technicals with
    | none => rw [ht] at h1; simp at h1
    | some t0 => rw [if_pos h2, List.append_nil, List.append_assoc]

/-- Witness for C8 (amended): the all-absent technicals record gives NEUTRAL
sub-signals, and on `c8Bundle` the contribution list omits the technical
component. -/
theorem c8_missing_indicators_witness :
    TechnicalIndicators.get_rsi_signal
        { symbol := "BTC", timestamp := 0, rsi_14 := none, sma_50 := none, sma_200 := none }
      = .NEUTRAL ∧
    TechnicalIndicators.get_ma_signal
        { symbol := "BTC", timestamp := 0, rsi_14 := none, sma_50 := none, sma_200 := none } 1
      = .NEUTRAL ∧
    presentContribs c8Bundle =
      marketContrib c8Bundle ++ newsContrib c8Bundle ++ sentimentContrib c8Bundle := by
  obtain ⟨h1, h2, h3⟩ := c8_missing_indicators
    { symbol := "BTC", timestamp := 0, rsi_14 := none, sma_50 := none, sma_200 := none }
    1 c8Bundle
  exact ⟨h1 rfl, h2 (Or.inl rfl), h3 rfl rfl⟩

/-- Two distinguishable news records used to exhibit cache-before-live. -/
def cachedNews : NewsItem :=
  { headline := "cached headline", source := "s", published_at := 0, url := "u",
    sentiment_score := 0, relevance_score := 0, impact_level := "low" }

/-- A live-fetched news record different from `cachedNews`. -/
def liveNews : NewsItem :=
  { headline := "live headline", source := "s", published_at := 0, url := "u",
    sentiment_score := 0, relevance_score := 0, impact_level := "low" }

/-- C4 counterexample: for the news category the cache is consulted FIRST;
with a fresh cache entry present (written at t=0, read at t=60, TTL 1800) and
a live fetch that would succeed with different items, `_collect_news` returns
the cached items, so a successful live fetch is NOT preferred over a cache
hit. -/
theorem c4_counterexample :
    collectNews (cachePut (emptyCache (List NewsItem)) "news_BTC" [cachedNews] 0)
        "BTC" 60 (some [liveNews]) = [cachedNews]
    ∧ [cachedNews] ≠ [liveNews] := by
  constructor
  · rfl
  · intro hcon
    have hh : cachedNews.headline = liveNews.headline := by
      rw [List.cons.injEq] at hcon
      rw [hcon.1]
    exact absurd hh (by decide)

/-- C4 (amended): the cache-as-last-resort policy holds for MARKET DATA only —
a successful polygon fetch (behind its key and rate-limit gates) is returned
outright, a successful coingecko fetch is returned when polygon yielded
nothing, and the cache is read only when both live attempts yielded nothing.
For NEWS and SENTIMENT the cache is consulted first: a fresh cache hit is
returned without using the live fetch result, which is consulted only on a
cache miss. -/
theorem c4_cache_is_fallback_only_for_market (hasKey : Bool) (rl : RLState)
    (pf cf : Option MarketData) (mcache : Cache MarketData)
    (ncache : Cache (List NewsItem)) (scache : Cache MarketSentiment)
    (sym : String) (now : ℤ) :
    (∀ d, (hasKey && checkRateLimit rl .polygon) = true → pf = some d →
      collectMarketData hasKey rl pf cf mcache sym now = some d) ∧
    ((if hasKey && checkRateLimit rl .polygon then pf else none) = none →
      ∀ d, checkRateLimit rl .coingecko = true → cf = some d →
        collectMarketData hasKey rl pf cf mcache sym now = some d) ∧
    ((if hasKey && checkRateLimit rl .polygon then pf else none) = none →
      (if checkRateLimit rl .coingecko then cf else none) = none →
      collectMarketData hasKey rl pf cf mcache sym now =
        cacheGet mcache ("market_" ++ sym) now 300) ∧
    (∀ items live, cacheGet ncache ("news_" ++ sym) now 1800 = some items →
      collectNews ncache sym now live = items) ∧
    (∀ m live, cacheGet scache "sentiment_global" now 3600 = some m →
      collectSentiment scache now live = some m) := by
  refine ⟨?_, ?_, ?_, ?_, ?_⟩
  · intro d hg hp
    unfold collectMarketData
    rw [if_pos hg, hp]
  · intro h1 d hg hc
    unfold collectMarketData
    rw [h1, if_pos hg, hc]
  · intro h1 h2
    unfold collectMarketData
    rw [h1, h2]
  · intro items live hhit
    unfold collectNews
    rw [hhit]
  · intro m live hhit
    unfold collectSentiment
    rw [hhit]

/-- A market record used in cache witnesses. -/
def liveMarket : MarketData :=
  { symbol := "BTC", timestamp := 0, price := 1, volume_24h := 1, market_cap := 1,
    change_24h := 0, source := "polygon" }

/-- A distinct cached market record. -/
def cachedMarket : MarketData :=
  { symbol := "BTC", timestamp := 0, price := 2, volume_24h := 1, market_cap := 1,
    change_24h := 0, source := "coingecko" }

/-- Witness for C4 (amended): with zero counters, a successful polygon fetch
is returned even though the cache holds a fresh (different) record, and a
fresh news cache hit is returned over a successful live fetch. -/
theorem c4_cache_is_fallback_only_for_market_witness :
    collectMarketData true zeroRL (some liveMarket) none
        (cachePut (emptyCache MarketData) "market_BTC" cachedMarket 0) "BTC" 60
      = some liveMarket ∧
    collectNews (cachePut (emptyCache (List NewsItem)) "news_BTC" [cachedNews] 0)
        "BTC" 60 (some [liveNews]) = [cachedNews] := by
  obtain ⟨h1, _, _, h4, _⟩ := c4_cache_is_fallback_only_for_market true zeroRL
    (some liveMarket) none
    (cachePut (emptyCache MarketData) "market_BTC" cachedMarket 0)
    (cachePut (emptyCache (List NewsItem)) "news_BTC" [cachedNews] 0)
    (emptyCache MarketSentiment) "BTC" 60
  exact ⟨h1 liveMarket rfl rfl, h4 [cachedNews] (some [liveNews]) rfl⟩

/-- C5 (code bug): a record `put` at t = 0 is correctly served at t = 100 and
correctly reported as a miss at t = 400 (TTL 300 elapsed), but at
t = 86401 — one day plus one second later, long after the TTL window — the
day-old record is served again, because the freshness test uses the Python
`timedelta.seconds` component, which wraps modulo 86400 (86401 % 86400 = 1
< 300). The claim (and the spec's `now − timestamp < window` freshness rule)
requires a miss there. -/
theorem c5_ttl_wraparound_bug :
    cacheGet (cachePut (emptyCache MarketData) "market_BTC" cachedMarket 0)
        "market_BTC" 100 300 = some cachedMarket ∧
    cacheGet (cachePut (emptyCache MarketData) "market_BTC" cachedMarket 0)
        "market_BTC" 400 300 = none ∧
    cacheGet (cachePut (emptyCache MarketData) "market_BTC" cachedMarket 0)
        "market_BTC" 86401 300 = some cachedMarket :=
  ⟨rfl, rfl, rfl⟩

/-- Counter value after `n` acquisition attempts starting from zero. -/
lemma acquireIter_count (p : Provider) (n : ℕ) :
    acquireIter p zeroRL n p = min n (maxCalls p) := by
  induction n with
  | zero => simp [acquireIter, zeroRL]
  | succ n ih =>
    show (tryAcquire (acquireIter p zeroRL n) p).2 p = _
    unfold tryAcquire
    by_cases h : checkRateLimit (acquireIter p zeroRL n) p = true
    · rw [if_pos h]
      unfold incrementRateLimit
      dsimp only
      rw [if_pos rfl, ih]
      unfold checkRateLimit at h
      rw [ih] at h
      simp only [decide_eq_true_eq] at h
      omega
    · rw [if_neg h]
      unfold checkRateLimit at h
      rw [ih] at h
      simp only [decide_eq_true_eq, not_lt] at h
      dsimp only
      rw [ih]
      omega

/-- C6: for every provider, starting from zero counters each of the first
`max` acquisition attempts succeeds and the granted call increments the
counter by one (attempt `n < max` succeeds leaving counter `n+1`), the
attempt made with the counter at `max` (the `max+1`-th overall) is denied,
and after `reset_rate_limits` every provider's counter is zero and an
acquisition succeeds again. -/
theorem c6_rate_limiter (p : Provider) (n : ℕ) (h : n < maxCalls p) :
    ((tryAcquire (acquireIter p zeroRL n) p).1 = true ∧
      acquireIter p zeroRL (n + 1) p = n + 1) ∧
    (tryAcquire (acquireIter p zeroRL (maxCalls p)) p).1 = false ∧
    (∀ rl : RLState, ∀ q : Provider, resetRateLimits rl q = 0 ∧
      (tryAcquire (resetRateLimits rl) q).1 = true) := by
  refine ⟨⟨?_, ?_⟩, ?_, ?_⟩
  · unfold tryAcquire
    rw [if_pos ?_]
    unfold checkRateLimit
    rw [acquireIter_count]
    simp only [decide_eq_true_eq]
    omega
  · show (tryAcquire (acquireIter p zeroRL n) p).2 p = _
    unfold tryAcquire
    rw [if_pos ?_]
    · unfold incrementRateLimit
      dsimp only
      rw [if_pos rfl, acquireIter_count]
      omega
    · unfold checkRateLimit
      rw [acquireIter_count]
      simp only [decide_eq_true_eq]
      omega
  · unfold tryAcquire
    rw [if_neg ?_]
    unfold checkRateLimit
    rw [acquireIter_count]
    simp
  · intro rl q
    refine ⟨rfl, ?_⟩
    unfold tryAcquire
    rw [if_pos ?_]
    unfold checkRateLimit resetRateLimits
    cases q <;> simp [maxCalls]

/-- Witness for C6 at the polygon provider (quota 5) and n = 0: the very
first attempt succeeds with counter 1, the attempt after 5 granted calls is
denied, and reset clears the counter. -/
theorem c6_rate_limiter_witness :
    (((tryAcquire (acquireIter .polygon zeroRL 0) .polygon).1 = true ∧
        acquireIter .polygon zeroRL 1 .polygon = 1) ∧
      (tryAcquire (acquireIter .polygon zeroRL (maxCalls .polygon)) .polygon).1 = false ∧
      (∀ rl : RLState, ∀ q : Provider, resetRateLimits rl q = 0 ∧
        (tryAcquire (resetRateLimits rl) q).1 = true)) :=
  c6_rate_limiter .polygon 0 (by norm_num [maxCalls])

/-- C9: a symbol whose per-symbol processing raises is skipped (its entry is
omitted everywhere) and removing it from the symbol list leaves the batch
result unchanged — one failing symbol never aborts the batch nor affects the
other symbols' results. -/
theorem c9_symbol_isolation (process : String → Except String CombinedSignal)
    (bad err : String) (hbad : process bad = .error err) (xs ys : List String) :
    collect_all_data process (xs ++ bad :: ys) = collect_all_data process (xs ++ ys) ∧
    ∀ L : List String, bad ∉ (collect_all_data process L).map Prod.fst := by
  constructor
  · induction xs with
    | nil => simp [collect_all_data, hbad]
    | cons x t ih =>
      simp only [List.cons_append, collect_all_data]
      cases process x <;> simp [ih]
  · intro L
    induction L with
    | nil => simp [collect_all_data]
    | cons x t ih =>
      cases hx : process x with
      | error e => simpa [collect_all_data, hx] using ih
      | ok sig =>
        simp only [collect_all_data, hx, List.map_cons, List.mem_cons, not_or]
        refine ⟨?_, ih⟩
        intro hcon
        subst hcon
        rw [hbad] at hx
        exact Except.noConfusion hx

/-- Per-symbol body used in the C9 witness: fails on "BAD", succeeds
elsewhere. -/
def c9process : String → Except String CombinedSignal :=
  fun sym =>
    if sym = "BAD" then .error "boom"
    else .ok (mkCombined sym 0 none [] none none)

/-- Witness for C9: dropping the failing symbol "BAD" from the batch leaves
the result unchanged, and "BAD" appears nowhere in the result keys. -/
theorem c9_symbol_isolation_witness :
    collect_all_data c9process ["BTC", "BAD", "ETH"] =
      collect_all_data c9process ["BTC", "ETH"] ∧
    "BAD" ∉ (collect_all_data c9process ["BTC", "BAD", "ETH"]).map Prod.fst := by
  obtain ⟨h1, h2⟩ := c9_symbol_isolation c9process "BAD" "boom" rfl ["BTC"] ["ETH"]
  exact ⟨h1, h2 ["BTC", "BAD", "ETH"]⟩

end ClaimTheorems
